import Mathlib

/-!
Shallow embedding of `extract_bbox_metadata.py` (PDF bbox-region metadata
extractor).  Coordinates are modelled as rationals.  The external PDF-parsing
collaborator (pdfplumber) is modelled as a `Page` record whose fields supply
the word records, page image records and vector-primitive counts that the
collaborator returns for a page or a cropped region; everything downstream of
those calls is translated from the Python source.
-/

namespace BboxMeta

/-- A rectangle `(x0, top, x1, bottom)` in page-local coordinates. -/
structure Rect where
  x0 : ℚ
  top : ℚ
  x1 : ℚ
  bottom : ℚ
  deriving DecidableEq, Repr

/-- Embedding of `clamp_bbox_to_page` (lines 9-26): clamp each coordinate
into the page bounds, then swap a pair if it is inverted. -/
def clamp_bbox_to_page (b : Rect) (width height : ℚ) : Rect :=
  let x0 := max 0 (min b.x0 width)
  let x1 := max 0 (min b.x1 width)
  let top := max 0 (min b.top height)
  let bottom := max 0 (min b.bottom height)
  let p := if x1 < x0 then (x1, x0) else (x0, x1)
  let q := if bottom < top then (bottom, top) else (top, bottom)
  ⟨p.1, q.1, p.2, q.2⟩

/-- Embedding of `bbox_overlap` (lines 29-35): strict positive-area
intersection test. -/
def bbox_overlap (a b : Rect) : Bool :=
  let inter_w := max 0 (min a.x1 b.x1 - max a.x0 b.x0)
  let inter_h := max 0 (min a.bottom b.bottom - max a.top b.top)
  decide (inter_w > 0) && decide (inter_h > 0)

/-- Embedding of pandas `Series.round(0)` as used on the `top` column
(line 63 `wdf["top"].round(0)`): numpy rounding, i.e. round half to even. -/
def roundHalfEven (q : ℚ) : ℤ :=
  if q - ⌊q⌋ < 1/2 then ⌊q⌋
  else if 1/2 < q - ⌊q⌋ then ⌊q⌋ + 1
  else if ⌊q⌋ % 2 = 0 then ⌊q⌋ else ⌊q⌋ + 1

/-- A word record as returned by `extract_words` with
`extra_attrs=["fontname", "size"]`. -/
structure Word where
  text : String
  x0 : ℚ
  top : ℚ
  x1 : ℚ
  bottom : ℚ
  fontname : String
  size : ℚ
  deriving DecidableEq, Repr

/-- One aggregated visual line (a record of `lines_df`, lines 65-79). -/
structure Line where
  text : String
  fontname : String
  size : ℚ
  x0 : ℚ
  top : ℚ
  x1 : ℚ
  bottom : ℚ
  deriving DecidableEq, Repr

/-- The line-grouping key `wdf["line_id"] = wdf["top"].round(0)` (line 63). -/
def lineKey (w : Word) : ℤ := roundHalfEven w.top

/-- The sort order of `sort_values(["line_id", "x0"])` (line 66):
lexicographic on the pair (line key, `x0`). -/
def wordLe (a b : Word) : Prop :=
  lineKey a < lineKey b ∨ (lineKey a = lineKey b ∧ a.x0 ≤ b.x0)

instance : DecidableRel wordLe := fun a b =>
  inferInstanceAs (Decidable (lineKey a < lineKey b ∨ (lineKey a = lineKey b ∧ a.x0 ≤ b.x0)))

/-- The word rows after `sort_values(["line_id", "x0"])` (line 66); pandas
performs a stable lexicographic sort, modelled by a stable insertion sort. -/
def sortedWords (ws : List Word) : List Word := List.insertionSort wordLe ws

/-- The distinct `line_id` keys in ascending order, as enumerated by
`groupby("line_id")` (line 67); on the sorted rows equal keys are adjacent,
so deduplication yields the ascending distinct keys. -/
def lineKeysOf (ws : List Word) : List ℤ := ((sortedWords ws).map lineKey).dedup

/-- The rows of one `groupby("line_id")` group, in sorted-frame order. -/
def lineGroup (ws : List Word) (k : ℤ) : List Word :=
  (sortedWords ws).filter (fun w => decide (lineKey w = k))

/-- All `groupby("line_id")` groups in ascending key order. -/
def lineGroups (ws : List Word) : List (List Word) :=
  (lineKeysOf ws).map (lineGroup ws)

/-- The first element of `l` whose `cnt` value is maximal: later elements
replace the current best only on a strictly larger count. -/
def firstMax (cnt : α → ℕ) : List α → Option α
  | [] => none
  | a :: t =>
    match firstMax cnt t with
    | none => some a
    | some b => if cnt a < cnt b then some b else some a

/-- Embedding of `Counter(x).most_common(1)[0][0]` (lines 70-71):
`Counter` lists values in first-occurrence order and `most_common` breaks
count ties by that order, so the result is the first-seen value whose
occurrence count in `l` is maximal. -/
def mostCommon [DecidableEq α] (l : List α) : Option α :=
  firstMax (fun a => l.count a) l

/-- Specification predicate: `m` occurs in `l` with maximal multiplicity,
and among the values tied for maximal multiplicity it is the one seen
first. -/
def IsFirstSeenMode [DecidableEq α] (l : List α) (m : α) : Prop :=
  m ∈ l ∧ (∀ x ∈ l, l.count x ≤ l.count m) ∧
    ∀ x ∈ l, l.count x = l.count m → l.indexOf m ≤ l.indexOf x

/-- The `agg` step of lines 68-76 applied to one line group: texts joined
with a single space, modal font name and size, and the bounding envelope.
The `getD` defaults are never reached on the nonempty groups produced by
`groupby`. -/
def aggregateLine (g : List Word) : Line :=
  { text := String.intercalate " " (g.map Word.text)
    fontname := (mostCommon (g.map Word.fontname)).getD ""
    size := (mostCommon (g.map Word.size)).getD 0
    x0 := ((g.map Word.x0).min?).getD 0
    top := ((g.map Word.top).min?).getD 0
    x1 := ((g.map Word.x1).max?).getD 0
    bottom := ((g.map Word.bottom).max?).getD 0 }

/-- The `sort_values("top")` order of line 78 on aggregated lines. -/
def lineTopLe (a b : Line) : Prop := a.top ≤ b.top

instance : DecidableRel lineTopLe := fun a b =>
  inferInstanceAs (Decidable (a.top ≤ b.top))

/-- The grouping/aggregation stage of `extract_bbox_text_metadata`
(lines 62-79): key the words by rounded `top`, group by key, aggregate each
group, and order the lines by aggregated `top`. -/
def reconstructLines (ws : List Word) : List Line :=
  List.insertionSort lineTopLe ((lineGroups ws).map aggregateLine)

/-- A raw image entry of `page.images`; the `.get(...)` fields are nullable
in the source and therefore optional here. -/
structure ImageEntry where
  x0 : ℚ
  top : ℚ
  x1 : ℚ
  bottom : ℚ
  width : Option ℚ
  height : Option ℚ
  name : Option String
  srcsize : Option (ℕ × ℕ)
  deriving DecidableEq, Repr

/-- An image record emitted by `extract_bbox_image_metadata` (lines 102-109). -/
structure ImageRecord where
  image_id : ℕ
  image_bbox : Rect
  width : Option ℚ
  height : Option ℚ
  name : Option String
  srcsize : Option (ℕ × ℕ)
  deriving DecidableEq, Repr

/-- The PDF collaborator's view of one page: dimensions, the word records a
crop would return, the page image list, and the vector-primitive counts a
crop would return. -/
structure Page where
  width : ℚ
  height : ℚ
  cropWords : Rect → List Word
  images : List ImageEntry
  cropLinesCount : Rect → ℕ
  cropRectsCount : Rect → ℕ
  cropCurvesCount : Rect → ℕ

/-- Result of `extract_bbox_text_metadata` (lines 54-85). -/
structure TextMeta where
  page_number : ℕ
  bbox : Rect
  lines : List Line
  message : Option String
  deriving DecidableEq, Repr

/-- Embedding of `extract_bbox_text_metadata` (lines 38-85): clamp the bbox,
extract the words of the cropped region, and either report that no text was
found or return the reconstructed lines. -/
def extract_bbox_text_metadata (page : Page) (page_number : ℕ) (bbox : Rect) :
    TextMeta :=
  let b := clamp_bbox_to_page bbox page.width page.height
  let words := page.cropWords b
  if words = [] then
    { page_number := page_number, bbox := b, lines := [],
      message := some "No text found inside bbox" }
  else
    { page_number := page_number, bbox := b, lines := reconstructLines words,
      message := none }

/-- Result of `extract_bbox_image_metadata` (lines 111-116). -/
structure ImageMeta where
  page_number : ℕ
  bbox : Rect
  image_count : ℕ
  images : List ImageRecord
  deriving DecidableEq, Repr

/-- Embedding of `extract_bbox_image_metadata` (lines 88-116): keep the
page images whose bbox overlaps the clamped bbox, remembering each kept
image's position in the original enumeration. -/
def extract_bbox_image_metadata (page : Page) (page_number : ℕ) (bbox : Rect) :
    ImageMeta :=
  let b := clamp_bbox_to_page bbox page.width page.height
  let results := page.images.enum.filterMap (fun p =>
    let img_bbox : Rect := ⟨p.2.x0, p.2.top, p.2.x1, p.2.bottom⟩
    if bbox_overlap b img_bbox then
      some { image_id := p.1, image_bbox := img_bbox, width := p.2.width,
             height := p.2.height, name := p.2.name, srcsize := p.2.srcsize }
    else none)
  { page_number := page_number, bbox := b, image_count := results.length,
    images := results }

/-- Result of `extract_bbox_table_signal` (lines 128-135). -/
structure TableSignal where
  page_number : ℕ
  bbox : Rect
  lines_count : ℕ
  rects_count : ℕ
  curves_count : ℕ
  likely_table : Bool
  deriving DecidableEq, Repr

/-- Embedding of `extract_bbox_table_signal` (lines 119-135): report the
vector-primitive counts of the cropped region and flag a likely table when
line count plus rect count exceeds 15. -/
def extract_bbox_table_signal (page : Page) (page_number : ℕ) (bbox : Rect) :
    TableSignal :=
  let b := clamp_bbox_to_page bbox page.width page.height
  { page_number := page_number, bbox := b,
    lines_count := page.cropLinesCount b,
    rects_count := page.cropRectsCount b,
    curves_count := page.cropCurvesCount b,
    likely_table := decide (page.cropLinesCount b + page.cropRectsCount b > 15) }

/-- The assembled region report (lines 143-152). -/
structure RegionReport where
  pdf_path : String
  page_number : ℕ
  bbox : Rect
  text : List Line
  text_line_count : ℕ
  images : List ImageRecord
  image_count : ℕ
  table_signal : TableSignal

/-- Embedding of `extract_bbox_metadata` (lines 138-152): run the three
analyses and merge their outputs; the counts are taken as the length of the
text part's `lines` and the image part's `image_count`. -/
def extract_bbox_metadata (pdf_path : String) (page : Page) (page_number : ℕ)
    (bbox : Rect) : RegionReport :=
  let text_part := extract_bbox_text_metadata page page_number bbox
  let image_part := extract_bbox_image_metadata page page_number bbox
  let table_part := extract_bbox_table_signal page page_number bbox
  { pdf_path := pdf_path, page_number := page_number, bbox := text_part.bbox,
    text := text_part.lines, text_line_count := text_part.lines.length,
    images := image_part.images, image_count := image_part.image_count,
    table_signal := table_part }

/-- The word sequence of the spec's line-grouping scenario:
`Hello` at `top = 100.2`, `World` at `top = 100.6`, `Next` at `top = 130`. -/
def c1Words : List Word :=
  [ ⟨"Hello", 10, 100.2, 40, 110.2, "F0", 10⟩,
    ⟨"World", 60, 100.6, 90, 110.6, "F0", 10⟩,
    ⟨"Next", 10, 130, 40, 140, "F0", 10⟩ ]

/-- Two words whose tops (100.2 and 99.8) both round to 100. -/
def c2wA : Word := ⟨"A", 0, 100.2, 10, 110, "F0", 10⟩

/-- Second word of the same-band pair. -/
def c2wB : Word := ⟨"B", 20, 99.8, 30, 110, "F0", 10⟩

/-- Concrete word list for the grouping witness. -/
def c2Words : List Word := [c2wA, c2wB]

/-- A page whose cropped region is blank. -/
def emptyPage : Page :=
  { width := 100, height := 100, cropWords := fun _ => [], images := [],
    cropLinesCount := fun _ => 0, cropRectsCount := fun _ => 0,
    cropCurvesCount := fun _ => 0 }

/-- A page whose crop reports 10 vector lines and 6 rects. -/
def tablePageA : Page :=
  { emptyPage with cropLinesCount := fun _ => 10, cropRectsCount := fun _ => 6 }

/-- A page whose crop reports 10 vector lines and 5 rects. -/
def tablePageB : Page :=
  { emptyPage with cropLinesCount := fun _ => 10, cropRectsCount := fun _ => 5 }

/-- A bbox covering the whole demo page. -/
def fullBox : Rect := ⟨0, 0, 100, 100⟩

end BboxMeta

namespace BboxMeta

/-- A single clamped coordinate lies inside `[0, limit]`. -/
theorem clamp_coord_mem (v limit : ℚ) (hl : 0 ≤ limit) :
    0 ≤ max 0 (min v limit) ∧ max 0 (min v limit) ≤ limit := by
  constructor
  · exact le_max_left 0 _
  · exact max_le hl (min_le_right v limit)

/-- The clamped rectangle is well formed and inside the page. -/
theorem clamp_valid (b : Rect) (W H : ℚ) (hW : 0 ≤ W) (hH : 0 ≤ H) :
    0 ≤ (clamp_bbox_to_page b W H).x0 ∧
    (clamp_bbox_to_page b W H).x0 ≤ (clamp_bbox_to_page b W H).x1 ∧
    (clamp_bbox_to_page b W H).x1 ≤ W ∧
    0 ≤ (clamp_bbox_to_page b W H).top ∧
    (clamp_bbox_to_page b W H).top ≤ (clamp_bbox_to_page b W H).bottom ∧
    (clamp_bbox_to_page b W H).bottom ≤ H := by
  obtain ⟨h0x0, hx0W⟩ := clamp_coord_mem b.x0 W hW
  obtain ⟨h0x1, hx1W⟩ := clamp_coord_mem b.x1 W hW
  obtain ⟨h0t, htH⟩ := clamp_coord_mem b.top H hH
  obtain ⟨h0b, hbH⟩ := clamp_coord_mem b.bottom H hH
  simp only [clamp_bbox_to_page]
  split_ifs with h1 h2 h2 <;>
    exact ⟨by linarith, by linarith, by linarith, by linarith, by linarith, by linarith⟩

/-- Clamping a rectangle that is already well formed and inside the page
changes nothing. -/
theorem clamp_eq_self (r : Rect) (W H : ℚ)
    (h1 : 0 ≤ r.x0) (h2 : r.x0 ≤ r.x1) (h3 : r.x1 ≤ W)
    (h4 : 0 ≤ r.top) (h5 : r.top ≤ r.bottom) (h6 : r.bottom ≤ H) :
    clamp_bbox_to_page r W H = r := by
  have e1 : max 0 (min r.x0 W) = r.x0 := by
    rw [min_eq_left (by linarith), max_eq_right h1]
  have e2 : max 0 (min r.x1 W) = r.x1 := by
    rw [min_eq_left h3, max_eq_right (by linarith)]
  have e3 : max 0 (min r.top H) = r.top := by
    rw [min_eq_left (by linarith), max_eq_right h4]
  have e4 : max 0 (min r.bottom H) = r.bottom := by
    rw [min_eq_left h6, max_eq_right (by linarith)]
  simp only [clamp_bbox_to_page, e1, e2, e3, e4]
  rw [if_neg (not_lt.mpr h2), if_neg (not_lt.mpr h5)]

/-- `firstMax` of a nonempty list returns a value. -/
theorem firstMax_cons_isSome (cnt : α → ℕ) (a : α) (t : List α) :
    (firstMax cnt (a :: t)).isSome := by
  rw [firstMax]
  cases firstMax cnt t with
  | none => rfl
  | some b =>
    dsimp only
    split <;> rfl

/-- The value returned by `firstMax` sits at a position before which every
element counts strictly less, and no element of the list counts more. -/
theorem firstMax_spec (cnt : α → ℕ) :
    ∀ (l : List α) (m : α), firstMax cnt l = some m →
      ∃ (i : ℕ) (hi : i < l.length), l.get ⟨i, hi⟩ = m ∧
        (∀ (j : ℕ) (hj : j < l.length), j < i → cnt (l.get ⟨j, hj⟩) < cnt m) ∧
        ∀ x ∈ l, cnt x ≤ cnt m := by
  intro l
  induction l with
  | nil => intro m h; simp [firstMax] at h
  | cons a t ih =>
    intro m h
    rw [firstMax] at h
    cases ht : firstMax cnt t with
    | none =>
      rw [ht] at h
      simp only [Option.some.injEq] at h
      subst h
      have ht' : t = [] := by
        cases t with
        | nil => rfl
        | cons b u =>
          have hs := firstMax_cons_isSome cnt b u
          rw [ht] at hs
          simp at hs
      subst ht'
      exact ⟨0, by simp, rfl, by omega, by simp⟩
    | some c =>
      rw [ht] at h
      obtain ⟨i, hi, hget, hlt, hmax⟩ := ih c ht
      dsimp only at h
      by_cases hac : cnt a < cnt c
      · rw [if_pos hac] at h
        simp only [Option.some.injEq] at h
        subst h
        refine ⟨i + 1, by simpa using Nat.succ_lt_succ hi, by simpa using hget, ?_, ?_⟩
        · intro j hj hji
          cases j with
          | zero => simpa using hac
          | succ j' =>
            have hj' : j' < t.length := by simpa using Nat.lt_of_succ_lt_succ hj
            have := hlt j' hj' (Nat.lt_of_succ_lt_succ hji)
            simpa using this
        · intro x hx
          rcases List.mem_cons.mp hx with hx | hx
          · subst hx; exact hac.le
          · exact hmax x hx
      · rw [if_neg hac] at h
        simp only [Option.some.injEq] at h
        subst h
        refine ⟨0, by simp, rfl, by omega, ?_⟩
        intro x hx
        rcases List.mem_cons.mp hx with hx | hx
        · subst hx; exact le_rfl
        · exact le_trans (hmax x hx) (not_lt.mp hac)

/-- If `a` sits at position `i` of `l` then its first occurrence is at or
before `i`. -/
theorem indexOf_le_of_get [DecidableEq α] :
    ∀ (l : List α) (a : α) (i : ℕ) (hi : i < l.length),
      l.get ⟨i, hi⟩ = a → l.indexOf a ≤ i := by
  intro l
  induction l with
  | nil => intro a i hi; simp at hi
  | cons b t ih =>
    intro a i hi hget
    by_cases hab : b = a
    · rw [List.indexOf_cons_eq t hab]; omega
    · rw [List.indexOf_cons_ne t hab]
      cases i with
      | zero => exact absurd hget hab
      | succ i' =>
        have hi' : i' < t.length := by simpa using Nat.lt_of_succ_lt_succ hi
        have := ih a i' hi' (by simpa using hget)
        omega

/-- The value picked by `mostCommon` is the first-seen mode of the list. -/
theorem mostCommon_spec [DecidableEq α] (l : List α) (m : α)
    (h : mostCommon l = some m) : IsFirstSeenMode l m := by
  obtain ⟨i, hi, hget, hlt, hmax⟩ := firstMax_spec (fun a => l.count a) l m h
  have hmem : m ∈ l := hget ▸ l.get_mem i hi
  refine ⟨hmem, hmax, ?_⟩
  intro x hx hcx
  have hj : l.indexOf x < l.length := List.indexOf_lt_length.mpr hx
  have hgj : l.get ⟨l.indexOf x, hj⟩ = x := List.indexOf_get hj
  rcases lt_or_ge (l.indexOf x) i with hlt' | hge
  · exfalso
    have := hlt (l.indexOf x) hj hlt'
    rw [hgj, hcx] at this
    exact lt_irrefl _ this
  · exact le_trans (indexOf_le_of_get l m i hi hget) hge

/-- `mostCommon` of a nonempty list returns a value. -/
theorem mostCommon_of_ne_nil [DecidableEq α] (l : List α) (h : l ≠ []) :
    ∃ m, mostCommon l = some m := by
  cases l with
  | nil => exact absurd rfl h
  | cons a t =>
    exact Option.isSome_iff_exists.mp (firstMax_cons_isSome _ a t)

/-- Sorting the words does not change membership. -/
theorem mem_sortedWords {w : Word} {ws : List Word} :
    w ∈ sortedWords ws ↔ w ∈ ws :=
  (List.perm_insertionSort wordLe ws).mem_iff

/-- Membership in one line group means membership in the input with the
matching key. -/
theorem mem_lineGroup {w : Word} {ws : List Word} {k : ℤ} :
    w ∈ lineGroup ws k ↔ w ∈ ws ∧ lineKey w = k := by
  simp [lineGroup, List.mem_filter, mem_sortedWords]

/-- The enumerated keys are exactly the keys of the input words. -/
theorem mem_lineKeysOf {k : ℤ} {ws : List Word} :
    k ∈ lineKeysOf ws ↔ ∃ w ∈ ws, lineKey w = k := by
  simp only [lineKeysOf, List.mem_dedup, List.mem_map]
  constructor
  · rintro ⟨w, hw, rfl⟩
    exact ⟨w, mem_sortedWords.mp hw, rfl⟩
  · rintro ⟨w, hw, rfl⟩
    exact ⟨w, mem_sortedWords.mpr hw, rfl⟩

/-- The rounded value is a nearest integer: it differs from the input by at
most one half. -/
theorem roundHalfEven_nearest (q : ℚ) : |q - (roundHalfEven q : ℚ)| ≤ 1/2 := by
  have h1 : (⌊q⌋ : ℚ) ≤ q := Int.floor_le q
  have h2 : q < ⌊q⌋ + 1 := Int.lt_floor_add_one q
  unfold roundHalfEven
  split_ifs with hc1 hc2 hc3 <;> rw [abs_le] <;> push_cast <;>
    constructor <;> linarith

/-- C5: for every input rectangle and nonnegative page size, the clamped
rectangle satisfies `0 ≤ x0 ≤ x1 ≤ W` and `0 ≤ top ≤ bottom ≤ H`;
`clamp_bbox_to_page` is a total function, so normalization never fails. -/
theorem C5_clamp_containment (b : Rect) (W H : ℚ) (hW : 0 ≤ W) (hH : 0 ≤ H) :
    let r := clamp_bbox_to_page b W H
    0 ≤ r.x0 ∧ r.x0 ≤ r.x1 ∧ r.x1 ≤ W ∧
    0 ≤ r.top ∧ r.top ≤ r.bottom ∧ r.bottom ≤ H :=
  clamp_valid b W H hW hH

/-- Witness for C5 at a concrete inverted, out-of-page rectangle. -/
theorem C5_clamp_containment_witness :
    (0 : ℚ) ≤ 100 ∧ (0 : ℚ) ≤ 50 ∧
    (let r := clamp_bbox_to_page ⟨120, -3, -5, 7⟩ 100 50
     0 ≤ r.x0 ∧ r.x0 ≤ r.x1 ∧ r.x1 ≤ 100 ∧
     0 ≤ r.top ∧ r.top ≤ r.bottom ∧ r.bottom ≤ 50) :=
  ⟨by norm_num, by norm_num,
   C5_clamp_containment ⟨120, -3, -5, 7⟩ 100 50 (by norm_num) (by norm_num)⟩

/-- C6: clamping is idempotent for positive page sizes:
`clamp (clamp b W H) W H = clamp b W H`. -/
theorem C6_clamp_idempotent (b : Rect) (W H : ℚ) (hW : 0 < W) (hH : 0 < H) :
    clamp_bbox_to_page (clamp_bbox_to_page b W H) W H =
      clamp_bbox_to_page b W H := by
  obtain ⟨h1, h2, h3, h4, h5, h6⟩ := clamp_valid b W H hW.le hH.le
  exact clamp_eq_self _ W H h1 h2 h3 h4 h5 h6

/-- Witness for C6 at a concrete inverted, out-of-page rectangle. -/
theorem C6_clamp_idempotent_witness :
    (0 : ℚ) < 100 ∧ (0 : ℚ) < 50 ∧
    clamp_bbox_to_page (clamp_bbox_to_page ⟨120, -3, -5, 7⟩ 100 50) 100 50 =
      clamp_bbox_to_page ⟨120, -3, -5, 7⟩ 100 50 :=
  ⟨by norm_num, by norm_num,
   C6_clamp_idempotent ⟨120, -3, -5, 7⟩ 100 50 (by norm_num) (by norm_num)⟩

/-- C10: clamping is the identity on already-valid rectangles: if
`0 ≤ x0 ≤ x1 ≤ W` and `0 ≤ top ≤ bottom ≤ H` then no coordinate is altered
and no swap occurs. -/
theorem C10_clamp_identity_on_valid (r : Rect) (W H : ℚ)
    (h1 : 0 ≤ r.x0) (h2 : r.x0 ≤ r.x1) (h3 : r.x1 ≤ W)
    (h4 : 0 ≤ r.top) (h5 : r.top ≤ r.bottom) (h6 : r.bottom ≤ H) :
    clamp_bbox_to_page r W H = r :=
  clamp_eq_self r W H h1 h2 h3 h4 h5 h6

/-- Witness for C10 at a concrete valid rectangle. -/
theorem C10_clamp_identity_on_valid_witness :
    ((0 : ℚ) ≤ 10 ∧ (10 : ℚ) ≤ 30 ∧ (30 : ℚ) ≤ 100 ∧
     (0 : ℚ) ≤ 5 ∧ (5 : ℚ) ≤ 45 ∧ (45 : ℚ) ≤ 50) ∧
    clamp_bbox_to_page ⟨10, 5, 30, 45⟩ 100 50 = ⟨10, 5, 30, 45⟩ :=
  ⟨⟨by norm_num, by norm_num, by norm_num, by norm_num, by norm_num, by norm_num⟩,
   C10_clamp_identity_on_valid ⟨10, 5, 30, 45⟩ 100 50 (by norm_num) (by norm_num)
     (by norm_num) (by norm_num) (by norm_num) (by norm_num)⟩

/-- C7: the overlap predicate is true iff the axis-aligned intersection has
strictly positive width and strictly positive height; rectangles sharing only
an edge, such as `(0,0,10,10)` and `(10,0,20,10)`, do not overlap. -/
theorem C7_overlap_iff_positive_area :
    (∀ a b : Rect, bbox_overlap a b = true ↔
      (max a.x0 b.x0 < min a.x1 b.x1 ∧ max a.top b.top < min a.bottom b.bottom)) ∧
    bbox_overlap ⟨0, 0, 10, 10⟩ ⟨10, 0, 20, 10⟩ = false := by
  have hmain : ∀ a b : Rect, bbox_overlap a b = true ↔
      (max a.x0 b.x0 < min a.x1 b.x1 ∧ max a.top b.top < min a.bottom b.bottom) := by
    intro a b
    simp only [bbox_overlap, Bool.and_eq_true, decide_eq_true_eq, gt_iff_lt,
      lt_max_iff, lt_self_iff_false, false_or, sub_pos]
  refine ⟨hmain, ?_⟩
  rw [← Bool.not_eq_true, hmain]
  decide

/-- C2: the line-grouping key of a word is its `top` rounded (half to even)
to the nearest integer — the rounded value differs from `top` by at most
one half — and two words of the input end up in a common line group exactly
when their keys agree. -/
theorem C2_line_grouping_key :
    (∀ w : Word, lineKey w = roundHalfEven w.top) ∧
    (∀ q : ℚ, |q - (roundHalfEven q : ℚ)| ≤ 1/2) ∧
    ∀ (ws : List Word) (w1 w2 : Word), w1 ∈ ws → w2 ∈ ws →
      ((∃ g ∈ lineGroups ws, w1 ∈ g ∧ w2 ∈ g) ↔ lineKey w1 = lineKey w2) := by
  refine ⟨fun w => rfl, roundHalfEven_nearest, ?_⟩
  intro ws w1 w2 h1 h2
  constructor
  · rintro ⟨g, hg, hw1, hw2⟩
    simp only [lineGroups, List.mem_map] at hg
    obtain ⟨k, hk, rfl⟩ := hg
    rw [(mem_lineGroup.mp hw1).2, (mem_lineGroup.mp hw2).2]
  · intro he
    refine ⟨lineGroup ws (lineKey w1), ?_, mem_lineGroup.mpr ⟨h1, rfl⟩,
      mem_lineGroup.mpr ⟨h2, he.symm⟩⟩
    simp only [lineGroups, List.mem_map]
    exact ⟨lineKey w1, mem_lineKeysOf.mpr ⟨w1, h1, rfl⟩, rfl⟩

/-- C3: for every nonempty line group, the aggregated `fontname` and `size`
are the most frequent value among the group's words, first-seen on ties. -/
theorem C3_line_font_aggregation (ws : List Word) (k : ℤ)
    (h : lineGroup ws k ≠ []) :
    IsFirstSeenMode ((lineGroup ws k).map Word.fontname)
      ((aggregateLine (lineGroup ws k)).fontname) ∧
    IsFirstSeenMode ((lineGroup ws k).map Word.size)
      ((aggregateLine (lineGroup ws k)).size) := by
  have hf : (lineGroup ws k).map Word.fontname ≠ [] := by
    simpa [List.map_eq_nil_iff] using h
  have hs : (lineGroup ws k).map Word.size ≠ [] := by
    simpa [List.map_eq_nil_iff] using h
  obtain ⟨mf, hmf⟩ := mostCommon_of_ne_nil _ hf
  obtain ⟨ms, hms⟩ := mostCommon_of_ne_nil _ hs
  constructor
  · have he : (aggregateLine (lineGroup ws k)).fontname = mf := by
      simp [aggregateLine, hmf]
    rw [he]
    exact mostCommon_spec _ _ hmf
  · have he : (aggregateLine (lineGroup ws k)).size = ms := by
      simp [aggregateLine, hms]
    rw [he]
    exact mostCommon_spec _ _ hms

/-- C4: `likely_table` is true iff the reported line count plus rect count
strictly exceeds 15, the curve count never influences it, and the concrete
10+6 and 10+5 cases sit on either side of the boundary. -/
theorem C4_table_signal_threshold :
    (∀ (page : Page) (n : ℕ) (b : Rect),
      ((extract_bbox_table_signal page n b).likely_table = true ↔
        (extract_bbox_table_signal page n b).lines_count +
          (extract_bbox_table_signal page n b).rects_count > 15)) ∧
    (∀ (page : Page) (n : ℕ) (b : Rect) (c : Rect → ℕ),
      (extract_bbox_table_signal { page with cropCurvesCount := c } n b).likely_table =
        (extract_bbox_table_signal page n b).likely_table) ∧
    (extract_bbox_table_signal tablePageA 0 fullBox).likely_table = true ∧
    (extract_bbox_table_signal tablePageB 0 fullBox).likely_table = false := by
  refine ⟨?_, fun page n b c => rfl, by decide, by decide⟩
  intro page n b
  simp [extract_bbox_table_signal]

/-- C8: in every assembled report, `text_line_count` is the length of `text`
and `image_count` is the length of `images`. -/
theorem C8_count_invariants (path : String) (page : Page) (n : ℕ) (b : Rect) :
    (extract_bbox_metadata path page n b).text_line_count =
      (extract_bbox_metadata path page n b).text.length ∧
    (extract_bbox_metadata path page n b).image_count =
      (extract_bbox_metadata path page n b).images.length :=
  ⟨rfl, rfl⟩

/-- C9: when the cropped region yields no words the pipeline still returns a
report — with empty `text`, zero `text_line_count`, and the informational
message in the text-extraction part — rather than failing. -/
theorem C9_empty_region (path : String) (page : Page) (n : ℕ) (b : Rect)
    (h : page.cropWords (clamp_bbox_to_page b page.width page.height) = []) :
    (extract_bbox_metadata path page n b).text = [] ∧
    (extract_bbox_metadata path page n b).text_line_count = 0 ∧
    (extract_bbox_text_metadata page n b).message =
      some "No text found inside bbox" := by
  simp [extract_bbox_metadata, extract_bbox_text_metadata, h]

/-- Witness for C9 on a blank page. -/
theorem C9_empty_region_witness :
    emptyPage.cropWords
        (clamp_bbox_to_page ⟨0, 0, 50, 50⟩ emptyPage.width emptyPage.height) = [] ∧
    ((extract_bbox_metadata "doc.pdf" emptyPage 0 ⟨0, 0, 50, 50⟩).text = [] ∧
     (extract_bbox_metadata "doc.pdf" emptyPage 0 ⟨0, 0, 50, 50⟩).text_line_count = 0 ∧
     (extract_bbox_text_metadata emptyPage 0 ⟨0, 0, 50, 50⟩).message =
       some "No text found inside bbox") :=
  ⟨rfl, C9_empty_region "doc.pdf" emptyPage 0 ⟨0, 0, 50, 50⟩ rfl⟩

section ConcreteEvaluation

attribute [local semireducible] Rat.ofScientific Rat.mul Rat.inv Rat.add Rat.sub

/-- C1 counterexample: on the spec's scenario words the grouping stage does
NOT produce the two lines `"Hello World"` and `"Next"`. -/
theorem C1_line_grouping_counterexample :
    (reconstructLines c1Words).map Line.text ≠ ["Hello World", "Next"] := by
  decide

/-- C1 amended: on the scenario words the grouping stage produces three
lines `"Hello"`, `"World"`, `"Next"`, because 100.2 rounds to 100 while
100.6 rounds to 101. -/
theorem C1_line_grouping_amended :
    (reconstructLines c1Words).length = 3 ∧
    (reconstructLines c1Words).map Line.text = ["Hello", "World", "Next"] := by
  constructor <;> decide

/-- Witness for C2: the two words with tops 100.2 and 99.8 share a line
group. -/
theorem C2_line_grouping_key_witness :
    c2wA ∈ c2Words ∧ c2wB ∈ c2Words ∧
    ∃ g ∈ lineGroups c2Words, c2wA ∈ g ∧ c2wB ∈ g :=
  ⟨by decide, by decide,
    (C2_line_grouping_key.2.2 c2Words c2wA c2wB (by decide) (by decide)).mpr
      (by decide)⟩

/-- Witness for C3 on the nonempty group with key 100 of the scenario
words. -/
theorem C3_line_font_aggregation_witness :
    lineGroup c1Words 100 ≠ [] ∧
    (IsFirstSeenMode ((lineGroup c1Words 100).map Word.fontname)
      ((aggregateLine (lineGroup c1Words 100)).fontname) ∧
     IsFirstSeenMode ((lineGroup c1Words 100).map Word.size)
      ((aggregateLine (lineGroup c1Words 100)).size)) :=
  ⟨by decide, C3_line_font_aggregation c1Words 100 (by decide)⟩

end ConcreteEvaluation

end BboxMeta
